import Mathlib

/-!
# git-smart: hook policies of `main.go`

A shallow embedding of the hook actions of `main.go` (`pre-commit`, `pre-push`,
`prepare-commit-msg`, `commit-msg`) and the properties of the specification that
are settled against them.

External collaborators are parameters of the embedding:

* the regular-expression engine (`regexp.MustCompile` / `MatchString`) is a
  value `re : Regexp`, a function from a pattern to `none` (the pattern does not
  compile) or to its unanchored match predicate;
* the repository (`os.Getwd`, `git.PlainOpen`, `repo.Head`, `repo.References`)
  is a `PrePushWorld`;
* the file system is a state `σ` with `FileOps σ`;
* the command runner of `pre-commit` is a function from a command to success.
-/

namespace GitSmart

/-! ## Configuration (`main.go`, lines 36-64) -/

/-- One entry of `preCommit.execute`. -/
structure PreCommitExecute where
  command : String
  arguments : List String
deriving DecidableEq, Repr

/-- Section `commitMessage.commit`. -/
structure CommitMessageCommit where
  enabled : Bool
  verificationRegEx : String
deriving DecidableEq, Repr

/-- Section `commitMessage`. -/
structure CommitMessage where
  commit : CommitMessageCommit
deriving DecidableEq, Repr

/-- Section `prepareCommitMessage.commit`. -/
structure PrepareCommitMessageCommit where
  enabled : Bool
  template : String
deriving DecidableEq, Repr

/-- Section `prepareCommitMessage`. -/
structure PrepareCommitMessage where
  commit : PrepareCommitMessageCommit
deriving DecidableEq, Repr

/-- Section `prePush`. -/
structure PrePush where
  enabled : Bool
  enforceProtectedBranchesOnNonExistentRemote : Bool
  protectedBranches : List String
  validBranches : List String
deriving DecidableEq, Repr

/-- Section `preCommit`. -/
structure PreCommit where
  enabled : Bool
  execute : List PreCommitExecute
deriving DecidableEq, Repr

/-- The Go struct `Configuration`. -/
structure Configuration where
  commitMessage : CommitMessage
  prepareCommitMessage : PrepareCommitMessage
  prePush : PrePush
  preCommit : PreCommit
deriving DecidableEq, Repr

/-! ## Outcomes of an action -/

/-- How a hook action ends: `ok` is `return nil` (exit code 0), `exit msg code`
is `return cli.Exit(msg, code)`, `panicked` is a Go panic (from `panic(err)` or
from `regexp.MustCompile` on a pattern that does not compile). -/
inductive Outcome where
  | ok
  | exit (msg : String) (code : Nat)
  | panicked
deriving DecidableEq, Repr

/-- The process exit code of an outcome, `none` for a panic (the Go runtime
aborts the process; no verdict is returned). -/
def Outcome.exitCode : Outcome → Option Nat
  | .ok => some 0
  | .exit _ code => some code
  | .panicked => none

/-- The regular-expression engine as seen by the program: `re p = none` when
`regexp.MustCompile p` panics, and `re p = some m` when it compiles, `m s` being
`MatchString s` (an unanchored search). -/
abbrev Regexp := String → Option (String → Bool)

/-! ## Repository view used by `pre-push` -/

/-- The go-git `plumbing.ReferenceType`. -/
inductive ReferenceType where
  | invalidReference
  | hashReference
  | symbolicReference
deriving DecidableEq, Repr

/-- A reference as observed by the program through go-git: `ref.Type()`,
`ref.Name().IsRemote()` and `ref.Name().Short()`. -/
structure Reference where
  refType : ReferenceType
  isRemote : Bool
  short : String
deriving DecidableEq, Repr

/-- The HEAD reference as observed by the program: `headRef.Name().IsBranch()`
and `headRef.Name().Short()`. -/
structure HeadRef where
  isBranch : Bool
  short : String
deriving DecidableEq, Repr

/-- An opened repository: the results of `repo.Head()` and `repo.References()`
(the latter as the list of references in enumeration order). -/
structure Repository where
  head : Except String HeadRef
  references : Except String (List Reference)

/-- What `pre-push` reads from its environment: `os.Getwd()` and
`git.PlainOpen`. -/
structure PrePushWorld where
  getwd : Except String String
  plainOpen : String → Except String Repository

/-! ## `pre-push` (`main.go`, lines 136-204) -/

/-- The callback of `references.ForEach` (lines 167-175) run over the references
in enumeration order; the accumulator is the variable `remoteBranchExists`. -/
def forEachRef (remote headShort : String) : List Reference → Bool → Bool
  | [], remoteBranchExists => remoteBranchExists
  | ref :: rest, remoteBranchExists =>
    if ref.refType = ReferenceType.symbolicReference then
      forEachRef remote headShort rest remoteBranchExists
    else if ref.isRemote then
      forEachRef remote headShort rest (ref.short == remote ++ "/" ++ headShort)
    else
      forEachRef remote headShort rest remoteBranchExists

/-- The value of `remoteBranchExists` after the enumeration (lines 165-175). -/
def remoteBranchExists (remote headShort : String) (references : List Reference) : Bool :=
  forEachRef remote headShort references false

/-- The loop over `protectedBranches` (lines 180-187): `some o` when the loop
leaves the action with outcome `o`, `none` when it runs to its end. -/
def protectedLoop (re : Regexp) (headShort : String) : List String → Option Outcome
  | [] => none
  | protectedBranchRegex :: rest =>
    match re protectedBranchRegex with
    | none => some Outcome.panicked
    | some m =>
      if m headShort then some (Outcome.exit "Current branch is protected" 1)
      else protectedLoop re headShort rest

/-- The loop over `validBranches` (lines 190-198): `none` when `MustCompile`
panics, otherwise the final value of `validBranch`. -/
def validLoop (re : Regexp) (headShort : String) : List String → Option Bool
  | [] => some false
  | validBranchRegex :: rest =>
    match re validBranchRegex with
    | none => none
    | some m =>
      if m headShort then some true
      else validLoop re headShort rest

/-- Lines 165-203: the action once HEAD is known to be a branch and the
references have been obtained. -/
def branchPolicy (re : Regexp) (configuration : Configuration) (remote headShort : String)
    (references : List Reference) : Outcome :=
  let checkProtectedBranch :=
    remoteBranchExists remote headShort references
      || configuration.prePush.enforceProtectedBranchesOnNonExistentRemote
  match (if checkProtectedBranch then
      protectedLoop re headShort configuration.prePush.protectedBranches else none) with
  | some o => o
  | none =>
    match validLoop re headShort configuration.prePush.validBranches with
    | none => Outcome.panicked
    | some validBranch =>
      if !validBranch then
        Outcome.exit "Current branch does not meet naming requirements" 1
      else Outcome.ok

/-- Lines 137-140: the remote name, the first positional argument or `""`. -/
def remoteArgument (args : List String) : String :=
  match args with
  | [] => ""
  | first :: _ => first

/-- The `pre-push` action; `args` are the positional arguments `c.Args()`. -/
def prePush (re : Regexp) (configuration : Configuration) (w : PrePushWorld)
    (args : List String) : Outcome :=
  let remote := remoteArgument args
  if !configuration.prePush.enabled then Outcome.ok
  else
    match w.getwd with
    | .error _ => Outcome.panicked
    | .ok pwd =>
      match w.plainOpen pwd with
      | .error _ => Outcome.panicked
      | .ok repo =>
        match repo.head with
        | .error _ => Outcome.panicked
        | .ok headRef =>
          if !headRef.isBranch then Outcome.ok
          else
            match repo.references with
            | .error _ => Outcome.panicked
            | .ok references => branchPolicy re configuration remote headRef.short references

/-! ## `pre-commit` (`main.go`, lines 116-131) -/

/-- The loop over `preCommit.execute`; `run e = true` when `cmd.Run()` returns no
error. The second component is the list of commands that were run, in order. -/
def preCommitLoop (run : PreCommitExecute → Bool) :
    List PreCommitExecute → Outcome × List PreCommitExecute
  | [] => (Outcome.ok, [])
  | execute :: rest =>
    if run execute then
      ((preCommitLoop run rest).1, execute :: (preCommitLoop run rest).2)
    else (Outcome.panicked, [execute])

/-- The `pre-commit` action: its outcome and the commands it ran. -/
def preCommit (run : PreCommitExecute → Bool) (configuration : Configuration) :
    Outcome × List PreCommitExecute :=
  if !configuration.preCommit.enabled then (Outcome.ok, [])
  else preCommitLoop run configuration.preCommit.execute

/-! ## `prepare-commit-msg` and `commit-msg` (`main.go`, lines 209-296) -/

/-- The file operations of `prepare-commit-msg` on a file-system state `σ`:
`create path` is `os.Create` (an error leaves the state as it is) and
`writeString path s` is `WriteString` on the created file. -/
structure FileOps (σ : Type) where
  create : String → σ → Except String σ
  writeString : String → String → σ → Except String σ

/-- The `prepare-commit-msg` action: outcome, file-system state afterwards and
the lines printed. -/
def prepareCommitMsg {σ : Type} (fs : FileOps σ) (configuration : Configuration)
    (args : List String) (s : σ) : Outcome × σ × List String :=
  let parsed : Option (String × String) :=
    match args with
    | [a0] => some (a0, "commit")
    | [a0, a1] => some (a0, a1)
    | [a0, a1, _] => some (a0, a1)
    | _ => none
  match parsed with
  | none => (Outcome.exit "No commit template referenced" 1, s, [])
  | some (commitTemplate, commitType) =>
    if commitType = "commit" then
      if !configuration.prepareCommitMessage.commit.enabled then (Outcome.ok, s, [])
      else
        let template := configuration.prepareCommitMessage.commit.template
        match fs.create commitTemplate s with
        | .error e => (Outcome.exit e 1, s, [])
        | .ok s1 =>
          match fs.writeString commitTemplate template s1 with
          | .error e => (Outcome.exit e 1, s1, [])
          | .ok s2 => (Outcome.ok, s2, ["Template written to " ++ commitTemplate])
    else (Outcome.ok, s, [])

/-- The `commit-msg` action; `readFile` is `ioutil.ReadFile`. -/
def commitMsg (re : Regexp) (configuration : Configuration)
    (readFile : String → Except String String) (args : List String) : Outcome :=
  let parsed : Option (String × String) :=
    match args with
    | [a0] => some (a0, "commit")
    | [a0, a1] => some (a0, a1)
    | [a0, a1, _] => some (a0, a1)
    | _ => none
  match parsed with
  | none => Outcome.exit "No commit message referenced" 1
  | some (commitMessage, commitType) =>
    if commitType = "commit" then
      if !configuration.commitMessage.commit.enabled then Outcome.ok
      else
        let verificationRegEx := configuration.commitMessage.commit.verificationRegEx
        match readFile commitMessage with
        | .error e => Outcome.exit e 1
        | .ok commitData =>
          match re verificationRegEx with
          | none => Outcome.panicked
          | some m =>
            if !m commitData then
              Outcome.exit "Commit message does not match required regular expression" 100
            else Outcome.ok
    else Outcome.ok

/-! ## A regular-expression engine for the scenarios

The general theorems hold for every engine `re`. The scenarios of the
specification are evaluated with `fragment`, an engine for a fragment of the Go
`regexp` syntax: literal characters, `.`, `\d`, the postfix operators `*` and
`+`, a leading `^` and a trailing `$`. Matching is by derivatives. A pattern
outside the fragment is not accepted; an unbalanced parenthesis such as `(` is
rejected by `regexp.MustCompile` as well. -/

/-- Regular expressions of the fragment. -/
inductive Rx where
  | void
  | eps
  | chr (c : Char)
  | dot
  | digit
  | all
  | seq (a b : Rx)
  | alt (a b : Rx)
  | star (a : Rx)
deriving Repr

/-- Does the expression match the empty text? -/
def Rx.nullable : Rx → Bool
  | .void => false
  | .eps => true
  | .chr _ => false
  | .dot => false
  | .digit => false
  | .all => false
  | .seq a b => a.nullable && b.nullable
  | .alt a b => a.nullable || b.nullable
  | .star _ => true

/-- The derivative of an expression by a character. -/
def Rx.deriv (c : Char) : Rx → Rx
  | .void => .void
  | .eps => .void
  | .chr d => if c = d then .eps else .void
  | .dot => if c = Char.ofNat 10 then .void else .eps
  | .digit => if c.isDigit then .eps else .void
  | .all => .eps
  | .seq a b =>
    if a.nullable then .alt (.seq (a.deriv c) b) (b.deriv c) else .seq (a.deriv c) b
  | .alt a b => .alt (a.deriv c) (b.deriv c)
  | .star a => .seq (a.deriv c) (.star a)

/-- Does the expression match the whole text? -/
def Rx.accepts (r : Rx) : List Char → Bool
  | [] => r.nullable
  | c :: cs => (r.deriv c).accepts cs

/-- Lexical items of a pattern body. -/
inductive Tok where
  | atom (r : Rx)
  | starOp
  | plusOp
deriving Repr

/-- Characters with a meaning of their own in a pattern. -/
def isMeta (c : Char) : Bool :=
  c = '(' || c = ')' || c = '[' || c = ']' || c = Char.ofNat 123 || c = Char.ofNat 125
    || c = '|' || c = '?' || c = '^' || c = '$' || c = '.' || c = '*' || c = '+'
    || c = Char.ofNat 92

/-- Split a pattern body into lexical items; `none` outside the fragment. -/
def tokens : List Char → Option (List Tok)
  | [] => some []
  | c :: rest =>
    if c = Char.ofNat 92 then
      match rest with
      | [] => none
      | d :: rest2 =>
        if d = 'd' then (tokens rest2).map (fun ts => Tok.atom Rx.digit :: ts)
        else if isMeta d then (tokens rest2).map (fun ts => Tok.atom (Rx.chr d) :: ts)
        else none
    else if c = '.' then (tokens rest).map (fun ts => Tok.atom Rx.dot :: ts)
    else if c = '*' then (tokens rest).map (fun ts => Tok.starOp :: ts)
    else if c = '+' then (tokens rest).map (fun ts => Tok.plusOp :: ts)
    else if isMeta c then none
    else (tokens rest).map (fun ts => Tok.atom (Rx.chr c) :: ts)

/-- Build the expression of a sequence of lexical items; a repetition operator
needs an atom before it. -/
def build : List Tok → Option Rx
  | [] => some Rx.eps
  | Tok.atom r :: Tok.starOp :: rest => (build rest).map (Rx.seq (Rx.star r))
  | Tok.atom r :: Tok.plusOp :: rest => (build rest).map (Rx.seq (Rx.seq r (Rx.star r)))
  | Tok.atom r :: rest => (build rest).map (Rx.seq r)
  | _ => none

/-- The engine of the fragment: compile a pattern to its unanchored match
predicate. -/
def fragment : Regexp := fun pattern =>
  let cs := pattern.toList
  let atStart := cs.head? = some '^'
  let cs1 := if atStart then cs.drop 1 else cs
  let atEnd := cs1.getLast? = some '$'
  let cs2 := if atEnd then cs1.dropLast else cs1
  match (tokens cs2).bind build with
  | none => none
  | some r =>
    let r1 := if atStart then r else Rx.seq (Rx.star Rx.all) r
    let r2 := if atEnd then r1 else Rx.seq r1 (Rx.star Rx.all)
    some (fun text => r2.accepts text.toList)

/-- Apply an engine to a pattern and a text; `none` when the pattern does not
compile. -/
def matchString (re : Regexp) (pattern text : String) : Option Bool :=
  (re pattern).map (fun m => m text)

/-! ## Specification-level notions and concrete inputs -/

/-- The remote-tracking flag as the specification words it: a membership test,
true exactly when some non-symbolic, remote-type reference has short name
`<remote>/<branch>`. -/
def remoteTrackingExistsSpec (remote branch : String) (references : List Reference) : Bool :=
  references.any (fun ref =>
    decide (ref.refType ≠ ReferenceType.symbolicReference) && ref.isRemote
      && (ref.short == remote ++ "/" ++ branch))

/-- Pattern `p` of the list `ps` is reached by a first-match loop over `ps` on
the text `b`: every pattern before it compiles and does not match. -/
def Reached (re : Regexp) (b : String) (ps : List String) (p : String) : Prop :=
  ∃ pre post, ps = pre ++ p :: post ∧ ∀ q ∈ pre, matchString re q b = some false

/-- A world in which the working directory is a repository whose HEAD and
references are the given ones. -/
def worldOf (head : HeadRef) (references : List Reference) : PrePushWorld where
  getwd := .ok "/work"
  plainOpen := fun _ => .ok { head := .ok head, references := .ok references }

/-- A world in which the working directory is not a git repository. -/
def worldNoRepo : PrePushWorld where
  getwd := .ok "/work"
  plainOpen := fun _ => .error "repository does not exist"

/-- A configuration whose `prePush` section is the given one, every other
feature disabled. -/
def configOfPrePush (prePush : PrePush) : Configuration where
  commitMessage := { commit := { enabled := false, verificationRegEx := "" } }
  prepareCommitMessage := { commit := { enabled := false, template := "" } }
  prePush := prePush
  preCommit := { enabled := false, execute := [] }

/-- The configuration with its `prePush.protectedBranches` list replaced. -/
def withProtectedBranches (configuration : Configuration) (ps : List String) :
    Configuration where
  commitMessage := configuration.commitMessage
  prepareCommitMessage := configuration.prepareCommitMessage
  prePush :=
    { enabled := configuration.prePush.enabled
      enforceProtectedBranchesOnNonExistentRemote :=
        configuration.prePush.enforceProtectedBranchesOnNonExistentRemote
      protectedBranches := ps
      validBranches := configuration.prePush.validBranches }
  preCommit := configuration.preCommit

/-- The configuration with its `prePush.validBranches` list replaced. -/
def withValidBranches (configuration : Configuration) (vs : List String) :
    Configuration where
  commitMessage := configuration.commitMessage
  prepareCommitMessage := configuration.prepareCommitMessage
  prePush :=
    { enabled := configuration.prePush.enabled
      enforceProtectedBranchesOnNonExistentRemote :=
        configuration.prePush.enforceProtectedBranchesOnNonExistentRemote
      protectedBranches := configuration.prePush.protectedBranches
      validBranches := vs }
  preCommit := configuration.preCommit

/-- A non-symbolic remote-tracking reference with the given short name. -/
def remoteRef (short : String) : Reference :=
  { refType := ReferenceType.hashReference, isRemote := true, short := short }

/-- A local branch reference with the given short name. -/
def localRef (short : String) : Reference :=
  { refType := ReferenceType.hashReference, isRemote := false, short := short }

/-- A configuration whose `commitMessage.commit` section is the given one,
every other feature disabled. -/
def configOfCommitMessage (commit : CommitMessageCommit) : Configuration where
  commitMessage := { commit := commit }
  prepareCommitMessage := { commit := { enabled := false, template := "" } }
  prePush :=
    { enabled := false, enforceProtectedBranchesOnNonExistentRemote := false,
      protectedBranches := [], validBranches := [] }
  preCommit := { enabled := false, execute := [] }

/-- A configuration whose `prepareCommitMessage.commit` section is the given
one, every other feature disabled. -/
def configOfPrepare (commit : PrepareCommitMessageCommit) : Configuration where
  commitMessage := { commit := { enabled := false, verificationRegEx := "" } }
  prepareCommitMessage := { commit := commit }
  prePush :=
    { enabled := false, enforceProtectedBranchesOnNonExistentRemote := false,
      protectedBranches := [], validBranches := [] }
  preCommit := { enabled := false, execute := [] }

/-- A configuration whose `preCommit` section is the given one, every other
feature disabled. -/
def configOfPreCommit (preCommit : PreCommit) : Configuration where
  commitMessage := { commit := { enabled := false, verificationRegEx := "" } }
  prepareCommitMessage := { commit := { enabled := false, template := "" } }
  prePush :=
    { enabled := false, enforceProtectedBranchesOnNonExistentRemote := false,
      protectedBranches := [], validBranches := [] }
  preCommit := preCommit

/-- A file system given by the list of its files, path and content. -/
abbrev Files := List (String × String)

/-- Reading a file of `Files`. -/
def readFileOf (files : Files) (path : String) : Except String String :=
  match files.lookup path with
  | some content => .ok content
  | none => .error ("open " ++ path ++ ": no such file or directory")

/-- File operations on `Files`: `create` truncates or adds the file, and
`writeString` sets its content. -/
def filesOps : FileOps Files where
  create := fun path files => .ok ((path, "") :: files.filter (fun f => f.1 != path))
  writeString := fun path content files =>
    .ok ((path, content) :: files.filter (fun f => f.1 != path))

/-- A command runner under which exactly the command named `false` fails. -/
def runExceptFalse (e : PreCommitExecute) : Bool :=
  e.command != "false"

/-- The outcome that the loop over `validBranches` decides. -/
def validOutcome (re : Regexp) (b : String) (validBranches : List String) : Outcome :=
  match validLoop re b validBranches with
  | none => Outcome.panicked
  | some true => Outcome.ok
  | some false => Outcome.exit "Current branch does not meet naming requirements" 1

/-! ## Lemmas on the loops -/

theorem protectedLoop_none_iff (re : Regexp) (b : String) (ps : List String) :
    protectedLoop re b ps = none ↔ ∀ q ∈ ps, matchString re q b = some false := by
  induction ps with
  | nil => simp [protectedLoop]
  | cons p ps ih =>
    simp only [protectedLoop, List.forall_mem_cons, matchString]
    cases hp : re p with
    | none => simp
    | some m =>
      cases hm : m b <;> simp [hm, ih, matchString]

theorem protectedLoop_blocked_iff (re : Regexp) (b : String) (ps : List String) :
    protectedLoop re b ps = some (Outcome.exit "Current branch is protected" 1) ↔
      ∃ p, Reached re b ps p ∧ matchString re p b = some true := by
  induction ps with
  | nil => simp [protectedLoop, Reached]
  | cons p ps ih =>
    simp only [protectedLoop]
    constructor
    · intro h
      cases hp : re p with
      | none => simp [hp] at h
      | some m =>
        cases hm : m b with
        | true =>
          exact ⟨p, ⟨[], ps, rfl, by simp⟩, by simp [matchString, hp, hm]⟩
        | false =>
          simp only [hp, hm] at h
          obtain ⟨q, ⟨pre, post, hps, hpre⟩, hq⟩ := ih.mp (by simpa using h)
          refine ⟨q, ⟨p :: pre, post, by simp [hps], ?_⟩, hq⟩
          intro r hr
          rcases List.mem_cons.mp hr with h1 | h1
          · subst h1; simp [matchString, hp, hm]
          · exact hpre r h1
    · rintro ⟨q, ⟨pre, post, hps, hpre⟩, hq⟩
      cases pre with
      | nil =>
        simp only [List.nil_append, List.cons.injEq] at hps
        obtain ⟨h1, -⟩ := hps
        subst h1
        cases hp : re p with
        | none => simp [matchString, hp] at hq
        | some m =>
          have : m b = true := by simpa [matchString, hp] using hq
          simp [this]
      | cons r pre =>
        simp only [List.cons_append, List.cons.injEq] at hps
        obtain ⟨h1, h2⟩ := hps
        subst h1
        have hr := hpre p (List.mem_cons_self _ _)
        cases hp : re p with
        | none => simp [matchString, hp] at hr
        | some m =>
          have hmb : m b = false := by simpa [matchString, hp] using hr
          simp only [hmb]
          exact ih.mpr ⟨q, ⟨pre, post, h2, fun r hr => hpre r (List.mem_cons_of_mem _ hr)⟩, hq⟩

theorem protectedLoop_panicked_iff (re : Regexp) (b : String) (ps : List String) :
    protectedLoop re b ps = some Outcome.panicked ↔
      ∃ p, Reached re b ps p ∧ re p = none := by
  induction ps with
  | nil => simp [protectedLoop, Reached]
  | cons p ps ih =>
    simp only [protectedLoop]
    constructor
    · intro h
      cases hp : re p with
      | none => exact ⟨p, ⟨[], ps, rfl, by simp⟩, hp⟩
      | some m =>
        cases hm : m b with
        | true => simp [hp, hm] at h
        | false =>
          simp only [hp, hm] at h
          obtain ⟨q, ⟨pre, post, hps, hpre⟩, hq⟩ := ih.mp (by simpa using h)
          refine ⟨q, ⟨p :: pre, post, by simp [hps], ?_⟩, hq⟩
          intro r hr
          rcases List.mem_cons.mp hr with h1 | h1
          · subst h1; simp [matchString, hp, hm]
          · exact hpre r h1
    · rintro ⟨q, ⟨pre, post, hps, hpre⟩, hq⟩
      cases pre with
      | nil =>
        simp only [List.nil_append, List.cons.injEq] at hps
        obtain ⟨h1, -⟩ := hps
        subst h1
        simp [hq]
      | cons r pre =>
        simp only [List.cons_append, List.cons.injEq] at hps
        obtain ⟨h1, h2⟩ := hps
        subst h1
        have hr := hpre p (List.mem_cons_self _ _)
        cases hp : re p with
        | none => simp [matchString, hp] at hr
        | some m =>
          have hmb : m b = false := by simpa [matchString, hp] using hr
          simp only [hmb]
          exact ih.mpr ⟨q, ⟨pre, post, h2, fun r hr => hpre r (List.mem_cons_of_mem _ hr)⟩, hq⟩

/-- The two loops walk their lists in the same way; only the results differ. -/
theorem protectedLoop_eq_of_validLoop (re : Regexp) (b : String) (ps : List String) :
    protectedLoop re b ps =
      match validLoop re b ps with
      | none => some Outcome.panicked
      | some true => some (Outcome.exit "Current branch is protected" 1)
      | some false => none := by
  induction ps with
  | nil => simp [protectedLoop, validLoop]
  | cons p ps ih =>
    simp only [protectedLoop, validLoop]
    cases hp : re p with
    | none => simp
    | some m =>
      cases hm : m b <;> simp [ih, hm]

theorem validLoop_none_iff (re : Regexp) (b : String) (ps : List String) :
    validLoop re b ps = none ↔ ∃ p, Reached re b ps p ∧ re p = none := by
  rw [← protectedLoop_panicked_iff, protectedLoop_eq_of_validLoop]
  cases h : validLoop re b ps with
  | none => simp
  | some v => cases v <;> simp

theorem validLoop_true_iff (re : Regexp) (b : String) (ps : List String) :
    validLoop re b ps = some true ↔
      ∃ p, Reached re b ps p ∧ matchString re p b = some true := by
  rw [← protectedLoop_blocked_iff, protectedLoop_eq_of_validLoop]
  cases h : validLoop re b ps with
  | none => simp
  | some v => cases v <;> simp

theorem validLoop_false_iff (re : Regexp) (b : String) (ps : List String) :
    validLoop re b ps = some false ↔ ∀ q ∈ ps, matchString re q b = some false := by
  rw [← protectedLoop_none_iff, protectedLoop_eq_of_validLoop]
  cases h : validLoop re b ps with
  | none => simp
  | some v => cases v <;> simp

/-- When every pattern compiles, the loop over `validBranches` computes whether
some pattern of the list matches. -/
theorem validLoop_of_valid (re : Regexp) (b : String) (ps : List String)
    (hvalid : ∀ q ∈ ps, (re q).isSome = true) :
    validLoop re b ps = some (ps.any (fun p => matchString re p b == some true)) := by
  induction ps with
  | nil => simp [validLoop]
  | cons p ps ih =>
    have hp := hvalid p (List.mem_cons_self _ _)
    have ih1 := ih (fun q hq => hvalid q (List.mem_cons_of_mem _ hq))
    simp only [validLoop, List.any_cons]
    cases hre : re p with
    | none => simp [hre] at hp
    | some m =>
      cases hm : m b <;> simp [matchString, hre, hm, ih1]

theorem any_match_iff (re : Regexp) (b : String) (ps : List String) :
    ps.any (fun p => matchString re p b == some true) = true ↔
      ∃ p ∈ ps, matchString re p b = some true := by
  simp [List.any_eq_true]

/-- Unfolding of `prePush` when the hook is enabled, HEAD is a branch and the
references can be enumerated. -/
theorem prePush_eq_branchPolicy (re : Regexp) (configuration : Configuration)
    (w : PrePushWorld) (args : List String) (pwd : String) (repo : Repository)
    (b : String) (refs : List Reference)
    (hen : configuration.prePush.enabled = true)
    (hwd : w.getwd = .ok pwd) (hopen : w.plainOpen pwd = .ok repo)
    (hhead : repo.head = .ok { isBranch := true, short := b })
    (hrefs : repo.references = .ok refs) :
    prePush re configuration w args
      = branchPolicy re configuration (remoteArgument args) b refs := by
  simp [prePush, hen, hwd, hopen, hhead, hrefs]

theorem matchString_false_of_valid (re : Regexp) (b p : String)
    (hvalid : (re p).isSome = true) (hno : matchString re p b ≠ some true) :
    matchString re p b = some false := by
  cases hre : re p with
  | none => simp [hre] at hvalid
  | some m =>
    cases hm : m b with
    | false => simp [matchString, hre, hm]
    | true => exact absurd (by simp [matchString, hre, hm]) hno

theorem validOutcome_ne_protected (re : Regexp) (b : String) (vs : List String) :
    validOutcome re b vs ≠ Outcome.exit "Current branch is protected" 1 := by
  unfold validOutcome
  cases validLoop re b vs with
  | none => simp
  | some v => cases v <;> simp

theorem branchPolicy_of_unchecked (re : Regexp) (configuration : Configuration)
    (remote b : String) (refs : List Reference)
    (hflag : remoteBranchExists remote b refs = false)
    (henforce : configuration.prePush.enforceProtectedBranchesOnNonExistentRemote = false) :
    branchPolicy re configuration remote b refs
      = validOutcome re b configuration.prePush.validBranches := by
  simp only [branchPolicy, validOutcome, hflag, henforce]
  cases validLoop re b configuration.prePush.validBranches with
  | none => simp
  | some v => cases v <;> simp

/-! ## The pre-push verdicts -/

/-- The protected stage relative to the flag that the code computes: with the
hook enabled, HEAD a branch `b` and every protected pattern compiling, if the
variable `remoteBranchExists` is true or
`enforceProtectedBranchesOnNonExistentRemote` is true, and some
`protectedBranches` pattern matches `b`, the action ends with
`cli.Exit("Current branch is protected", 1)`, whatever `validBranches` holds. -/
theorem prePush_blocks_given_flag (re : Regexp) (configuration : Configuration)
    (w : PrePushWorld) (args : List String) (pwd : String) (repo : Repository)
    (b : String) (refs : List Reference)
    (hen : configuration.prePush.enabled = true)
    (hwd : w.getwd = .ok pwd) (hopen : w.plainOpen pwd = .ok repo)
    (hhead : repo.head = .ok { isBranch := true, short := b })
    (hrefs : repo.references = .ok refs)
    (hvalidP : ∀ p ∈ configuration.prePush.protectedBranches, (re p).isSome = true)
    (hcheck : remoteBranchExists (remoteArgument args) b refs = true
      ∨ configuration.prePush.enforceProtectedBranchesOnNonExistentRemote = true)
    (hmatch : ∃ p ∈ configuration.prePush.protectedBranches,
      matchString re p b = some true) :
    prePush re configuration w args = Outcome.exit "Current branch is protected" 1
      ∧ (prePush re configuration w args).exitCode = some 1 := by
  have hc : (remoteBranchExists (remoteArgument args) b refs
      || configuration.prePush.enforceProtectedBranchesOnNonExistentRemote) = true := by
    rcases hcheck with h | h <;> simp [h]
  have hloop : protectedLoop re b configuration.prePush.protectedBranches
      = some (Outcome.exit "Current branch is protected" 1) := by
    rw [protectedLoop_eq_of_validLoop, validLoop_of_valid re b _ hvalidP,
      (any_match_iff re b _).mpr hmatch]
  have h : prePush re configuration w args
      = Outcome.exit "Current branch is protected" 1 := by
    rw [prePush_eq_branchPolicy re configuration w args pwd repo b refs hen hwd hopen hhead hrefs]
    simp only [branchPolicy, hc, hloop, if_true]
  exact ⟨h, by rw [h]; rfl⟩

/-- C3: with the hook enabled, HEAD a branch `b` and all patterns valid, when
the protected stage does not block (the protected check is not applied, or no
`protectedBranches` pattern matches `b`) the action ends with
`cli.Exit("Current branch does not meet naming requirements", 1)` if no
`validBranches` pattern matches `b` and with `return nil` otherwise; with an empty
`validBranches` list it is never `return nil`. -/
theorem prePush_valid_stage (re : Regexp) (configuration : Configuration)
    (w : PrePushWorld) (args : List String) (pwd : String) (repo : Repository)
    (b : String) (refs : List Reference)
    (hen : configuration.prePush.enabled = true)
    (hwd : w.getwd = .ok pwd) (hopen : w.plainOpen pwd = .ok repo)
    (hhead : repo.head = .ok { isBranch := true, short := b })
    (hrefs : repo.references = .ok refs)
    (hvalidP : ∀ p ∈ configuration.prePush.protectedBranches, (re p).isSome = true)
    (hvalidV : ∀ p ∈ configuration.prePush.validBranches, (re p).isSome = true)
    (hpass : (remoteBranchExists (remoteArgument args) b refs = false
        ∧ configuration.prePush.enforceProtectedBranchesOnNonExistentRemote = false)
      ∨ ∀ p ∈ configuration.prePush.protectedBranches, matchString re p b ≠ some true) :
    ((∀ v ∈ configuration.prePush.validBranches, matchString re v b ≠ some true) →
        prePush re configuration w args
          = Outcome.exit "Current branch does not meet naming requirements" 1)
      ∧ ((∃ v ∈ configuration.prePush.validBranches, matchString re v b = some true) →
        prePush re configuration w args = Outcome.ok)
      ∧ (configuration.prePush.validBranches = [] →
        prePush re configuration w args
            = Outcome.exit "Current branch does not meet naming requirements" 1
          ∧ prePush re configuration w args ≠ Outcome.ok) := by
  have hstage : (if (remoteBranchExists (remoteArgument args) b refs
        || configuration.prePush.enforceProtectedBranchesOnNonExistentRemote) = true then
      protectedLoop re b configuration.prePush.protectedBranches else none) = none := by
    rcases hpass with ⟨h1, h2⟩ | h
    · simp [h1, h2]
    · have : protectedLoop re b configuration.prePush.protectedBranches = none :=
        (protectedLoop_none_iff re b _).mpr
          (fun q hq => matchString_false_of_valid re b q (hvalidP q hq) (h q hq))
      simp [this]
  have hpol : prePush re configuration w args =
      if configuration.prePush.validBranches.any (fun p => matchString re p b == some true)
      then Outcome.ok
      else Outcome.exit "Current branch does not meet naming requirements" 1 := by
    rw [prePush_eq_branchPolicy re configuration w args pwd repo b refs hen hwd hopen hhead hrefs]
    simp only [branchPolicy, hstage, validLoop_of_valid re b _ hvalidV]
    cases configuration.prePush.validBranches.any (fun p => matchString re p b == some true)
      <;> simp
  have hno : (∀ v ∈ configuration.prePush.validBranches, matchString re v b ≠ some true) →
      prePush re configuration w args
        = Outcome.exit "Current branch does not meet naming requirements" 1 := by
    intro h
    have : configuration.prePush.validBranches.any
        (fun p => matchString re p b == some true) = false := by
      rw [Bool.eq_false_iff]
      intro hany
      obtain ⟨v, hv, hm⟩ := (any_match_iff re b _).mp hany
      exact h v hv hm
    rw [hpol, this]; simp
  refine ⟨hno, ?_, ?_⟩
  · intro h
    rw [hpol, (any_match_iff re b _).mpr h]; simp
  · intro hnil
    have h := hno (by simp [hnil])
    exact ⟨h, by rw [h]; simp⟩

/-- C4: with the hook enabled and HEAD a branch `b`, when the remote-tracking
flag and `enforceProtectedBranchesOnNonExistentRemote` are both false the
protected-branch patterns are not consulted: the outcome is never
`cli.Exit("Current branch is protected", 1)`, it equals the outcome under an
empty `protectedBranches` list, and it is the one the loop over `validBranches`
decides. -/
theorem prePush_protected_not_applied (re : Regexp) (configuration : Configuration)
    (w : PrePushWorld) (args : List String) (pwd : String) (repo : Repository)
    (b : String) (refs : List Reference)
    (hen : configuration.prePush.enabled = true)
    (hwd : w.getwd = .ok pwd) (hopen : w.plainOpen pwd = .ok repo)
    (hhead : repo.head = .ok { isBranch := true, short := b })
    (hrefs : repo.references = .ok refs)
    (hflag : remoteBranchExists (remoteArgument args) b refs = false)
    (henforce : configuration.prePush.enforceProtectedBranchesOnNonExistentRemote = false) :
    prePush re configuration w args ≠ Outcome.exit "Current branch is protected" 1
      ∧ prePush re configuration w args
        = prePush re (withProtectedBranches configuration []) w args
      ∧ prePush re configuration w args
        = validOutcome re b configuration.prePush.validBranches := by
  have h3 : prePush re configuration w args
      = validOutcome re b configuration.prePush.validBranches := by
    rw [prePush_eq_branchPolicy re configuration w args pwd repo b refs hen hwd hopen hhead hrefs]
    exact branchPolicy_of_unchecked re configuration _ b refs hflag henforce
  refine ⟨?_, ?_, h3⟩
  · rw [h3]
    exact validOutcome_ne_protected re b _
  · rw [h3, prePush_eq_branchPolicy re (withProtectedBranches configuration []) w args pwd
      repo b refs hen hwd hopen hhead hrefs]
    exact (branchPolicy_of_unchecked re (withProtectedBranches configuration []) _ b refs
      hflag henforce).symm

/-- C9: when `prePush.enabled` is false the action returns `nil` (exit code 0)
for every engine, every positional argument list, every environment (also one
whose working directory is not a repository or whose HEAD cannot be resolved)
and every pattern list. -/
theorem prePush_disabled_ok (re : Regexp) (configuration : Configuration)
    (w : PrePushWorld) (args : List String)
    (hdis : configuration.prePush.enabled = false) :
    prePush re configuration w args = Outcome.ok
      ∧ (prePush re configuration w args).exitCode = some 0 := by
  have h : prePush re configuration w args = Outcome.ok := by
    simp [prePush, hdis]
  exact ⟨h, by rw [h]; rfl⟩

/-- The scenario `protectedBranches: ["^main$"]`, `validBranches: [".*"]`, branch
`main` pushed to `origin`, with `origin/main` the only remote-tracking reference:
the push is blocked as protected, exit code 1. -/
theorem prePush_blocks_given_flag_scenario :
    prePush fragment
        (configOfPrePush
          { enabled := true, enforceProtectedBranchesOnNonExistentRemote := false,
            protectedBranches := ["^main$"], validBranches := [".*"] })
        (worldOf { isBranch := true, short := "main" } [remoteRef "origin/main"])
        ["origin"]
      = Outcome.exit "Current branch is protected" 1 :=
  (prePush_blocks_given_flag fragment
    (configOfPrePush
      { enabled := true, enforceProtectedBranchesOnNonExistentRemote := false,
        protectedBranches := ["^main$"], validBranches := [".*"] })
    (worldOf { isBranch := true, short := "main" } [remoteRef "origin/main"])
    ["origin"] "/work"
    { head := .ok { isBranch := true, short := "main" },
      references := .ok [remoteRef "origin/main"] }
    "main" [remoteRef "origin/main"] rfl rfl rfl rfl rfl
    (by decide) (Or.inl (by decide)) (by decide)).1

/-- C1, the code at a failing input: hook enabled, HEAD the branch `main`, push
to `origin`, `protectedBranches: ["^main$"]`, `validBranches: [".*"]`, references
enumerated as the local `main`, `origin/main`, `origin/release`. Every pattern
compiles, the remote-tracking reference `origin/main` exists (the membership test
of the specification is true) and `^main$` matches `main`, so the protected-check
condition of the claim holds; yet the variable `remoteBranchExists` is false
after the enumeration and the action returns `nil` (exit code 0) instead of
`cli.Exit("Current branch is protected", 1)`. -/
theorem prePush_protected_not_blocked :
    (∀ p ∈ ["^main$", ".*"], (fragment p).isSome = true)
      ∧ remoteTrackingExistsSpec "origin" "main"
          [localRef "main", remoteRef "origin/main", remoteRef "origin/release"] = true
      ∧ matchString fragment "^main$" "main" = some true
      ∧ remoteBranchExists (remoteArgument ["origin"]) "main"
          [localRef "main", remoteRef "origin/main", remoteRef "origin/release"] = false
      ∧ prePush fragment
          (configOfPrePush
            { enabled := true, enforceProtectedBranchesOnNonExistentRemote := false,
              protectedBranches := ["^main$"], validBranches := [".*"] })
          (worldOf { isBranch := true, short := "main" }
            [localRef "main", remoteRef "origin/main", remoteRef "origin/release"])
          ["origin"]
        = Outcome.ok
      ∧ (prePush fragment
          (configOfPrePush
            { enabled := true, enforceProtectedBranchesOnNonExistentRemote := false,
              protectedBranches := ["^main$"], validBranches := [".*"] })
          (worldOf { isBranch := true, short := "main" }
            [localRef "main", remoteRef "origin/main", remoteRef "origin/release"])
          ["origin"]).exitCode
        = some 0 := by
  refine ⟨?_, ?_, ?_, ?_, ?_, ?_⟩ <;> decide

/-- Scenarios of C3: `validBranches: ["^feature/"]` with branch `bugfix/y` and no
protected pattern is blocked for its name; `protectedBranches: ["^main$"]`,
`validBranches: [".*"]` with branch `feature/x` is allowed. -/
theorem prePush_valid_stage_witness :
    prePush fragment
        (configOfPrePush
          { enabled := true, enforceProtectedBranchesOnNonExistentRemote := false,
            protectedBranches := [], validBranches := ["^feature/"] })
        (worldOf { isBranch := true, short := "bugfix/y" } [remoteRef "origin/bugfix/y"])
        ["origin"]
      = Outcome.exit "Current branch does not meet naming requirements" 1
    ∧ prePush fragment
        (configOfPrePush
          { enabled := true, enforceProtectedBranchesOnNonExistentRemote := false,
            protectedBranches := ["^main$"], validBranches := [".*"] })
        (worldOf { isBranch := true, short := "feature/x" } [remoteRef "origin/feature/x"])
        ["origin"]
      = Outcome.ok :=
  ⟨(prePush_valid_stage fragment
      (configOfPrePush
        { enabled := true, enforceProtectedBranchesOnNonExistentRemote := false,
          protectedBranches := [], validBranches := ["^feature/"] })
      (worldOf { isBranch := true, short := "bugfix/y" } [remoteRef "origin/bugfix/y"])
      ["origin"] "/work"
      { head := .ok { isBranch := true, short := "bugfix/y" },
        references := .ok [remoteRef "origin/bugfix/y"] }
      "bugfix/y" [remoteRef "origin/bugfix/y"] rfl rfl rfl rfl rfl
      (by decide) (by decide) (Or.inr (by decide))).1 (by decide),
   (prePush_valid_stage fragment
      (configOfPrePush
        { enabled := true, enforceProtectedBranchesOnNonExistentRemote := false,
          protectedBranches := ["^main$"], validBranches := [".*"] })
      (worldOf { isBranch := true, short := "feature/x" } [remoteRef "origin/feature/x"])
      ["origin"] "/work"
      { head := .ok { isBranch := true, short := "feature/x" },
        references := .ok [remoteRef "origin/feature/x"] }
      "feature/x" [remoteRef "origin/feature/x"] rfl rfl rfl rfl rfl
      (by decide) (by decide) (Or.inr (by decide))).2.1 (by decide)⟩

/-- Scenario of C4: branch `main` with no remote-tracking reference and
`enforceProtectedBranchesOnNonExistentRemote: false`: the pattern `^main$` of
`protectedBranches` is not consulted and the push is allowed by `.*`. -/
theorem prePush_protected_not_applied_witness :
    prePush fragment
        (configOfPrePush
          { enabled := true, enforceProtectedBranchesOnNonExistentRemote := false,
            protectedBranches := ["^main$"], validBranches := [".*"] })
        (worldOf { isBranch := true, short := "main" } [localRef "main"])
        ["origin"]
      = prePush fragment
        (withProtectedBranches (configOfPrePush
          { enabled := true, enforceProtectedBranchesOnNonExistentRemote := false,
            protectedBranches := ["^main$"], validBranches := [".*"] }) [])
        (worldOf { isBranch := true, short := "main" } [localRef "main"])
        ["origin"] :=
  (prePush_protected_not_applied fragment
    (configOfPrePush
      { enabled := true, enforceProtectedBranchesOnNonExistentRemote := false,
        protectedBranches := ["^main$"], validBranches := [".*"] })
    (worldOf { isBranch := true, short := "main" } [localRef "main"])
    ["origin"] "/work"
    { head := .ok { isBranch := true, short := "main" },
      references := .ok [localRef "main"] }
    "main" [localRef "main"] rfl rfl rfl rfl rfl (by decide) rfl).2.1

/-- Scenario of C9: a disabled hook returns `nil` in a directory that is not a
repository, with a pattern that does not compile in each list. -/
theorem prePush_disabled_ok_witness :
    prePush fragment
        (configOfPrePush
          { enabled := false, enforceProtectedBranchesOnNonExistentRemote := true,
            protectedBranches := ["("], validBranches := ["("] })
        worldNoRepo ["origin"]
      = Outcome.ok :=
  (prePush_disabled_ok fragment
    (configOfPrePush
      { enabled := false, enforceProtectedBranchesOnNonExistentRemote := true,
        protectedBranches := ["("], validBranches := ["("] })
    worldNoRepo ["origin"] rfl).1

/-! ## Patterns that do not compile -/

/-- C5, counterexample: a pattern that does not compile is not always fatal.
`(` does not compile, yet with `validBranches: [".*", "("]` branch `main` is
allowed; with `protectedBranches: ["("]` and the protected check not applied it
is allowed; with `protectedBranches: ["^main$", "("]` and the check applied it is
blocked as protected; with `validBranches: ["("]` under a matching protected
pattern it is blocked as protected. -/
theorem prePush_invalid_pattern_not_fatal :
    (fragment "(").isNone = true
      ∧ prePush fragment
          (configOfPrePush
            { enabled := true, enforceProtectedBranchesOnNonExistentRemote := false,
              protectedBranches := [], validBranches := [".*", "("] })
          (worldOf { isBranch := true, short := "main" } []) ["origin"]
        = Outcome.ok
      ∧ prePush fragment
          (configOfPrePush
            { enabled := true, enforceProtectedBranchesOnNonExistentRemote := false,
              protectedBranches := ["("], validBranches := [".*"] })
          (worldOf { isBranch := true, short := "main" } []) ["origin"]
        = Outcome.ok
      ∧ prePush fragment
          (configOfPrePush
            { enabled := true, enforceProtectedBranchesOnNonExistentRemote := true,
              protectedBranches := ["^main$", "("], validBranches := [".*"] })
          (worldOf { isBranch := true, short := "main" } []) ["origin"]
        = Outcome.exit "Current branch is protected" 1
      ∧ prePush fragment
          (configOfPrePush
            { enabled := true, enforceProtectedBranchesOnNonExistentRemote := true,
              protectedBranches := ["^main$"], validBranches := ["("] })
          (worldOf { isBranch := true, short := "main" } []) ["origin"]
        = Outcome.exit "Current branch is protected" 1 := by
  refine ⟨?_, ?_, ?_, ?_, ?_⟩ <;> decide

theorem prePush_panicked_iff_reached (re : Regexp) (configuration : Configuration)
    (w : PrePushWorld) (args : List String) (pwd : String) (repo : Repository)
    (b : String) (refs : List Reference)
    (hen : configuration.prePush.enabled = true)
    (hwd : w.getwd = .ok pwd) (hopen : w.plainOpen pwd = .ok repo)
    (hhead : repo.head = .ok { isBranch := true, short := b })
    (hrefs : repo.references = .ok refs) :
    prePush re configuration w args = Outcome.panicked ↔
      ((remoteBranchExists (remoteArgument args) b refs
            || configuration.prePush.enforceProtectedBranchesOnNonExistentRemote) = true
          ∧ ∃ p, Reached re b configuration.prePush.protectedBranches p ∧ re p = none)
        ∨ (((remoteBranchExists (remoteArgument args) b refs
              || configuration.prePush.enforceProtectedBranchesOnNonExistentRemote) = false
            ∨ ∀ q ∈ configuration.prePush.protectedBranches,
                matchString re q b = some false)
          ∧ ∃ p, Reached re b configuration.prePush.validBranches p ∧ re p = none) := by
  rw [prePush_eq_branchPolicy re configuration w args pwd repo b refs hen hwd hopen hhead hrefs,
    ← protectedLoop_panicked_iff, ← protectedLoop_none_iff, ← validLoop_none_iff]
  simp only [branchPolicy]
  cases hc : (remoteBranchExists (remoteArgument args) b refs
      || configuration.prePush.enforceProtectedBranchesOnNonExistentRemote) with
  | false =>
    cases hv : validLoop re b configuration.prePush.validBranches with
    | none => simp
    | some v => cases v <;> simp
  | true =>
    cases hp : protectedLoop re b configuration.prePush.protectedBranches with
    | some o => simp
    | none =>
      cases hv : validLoop re b configuration.prePush.validBranches with
      | none => simp
      | some v => cases v <;> simp

/-- When the protected check is not applied, the list `protectedBranches` is not
read: the outcome of lines 165-203 is the same for every such list. -/
theorem branchPolicy_protected_irrelevant (re : Regexp) (configuration : Configuration)
    (remote b : String) (refs : List Reference) (ps : List String)
    (hc : (remoteBranchExists remote b refs
      || configuration.prePush.enforceProtectedBranchesOnNonExistentRemote) = false) :
    branchPolicy re (withProtectedBranches configuration ps) remote b refs
      = branchPolicy re configuration remote b refs := by
  have hc1 : (remoteBranchExists remote b refs
      || (withProtectedBranches configuration ps).prePush.enforceProtectedBranchesOnNonExistentRemote)
      = false := hc
  simp only [branchPolicy, hc, hc1]
  rfl

/-- When the protected check applies and a matching protected pattern is
reached, the outcome of lines 165-203 is the protected block, whatever follows
that pattern in `protectedBranches` and whatever `validBranches` holds. -/
theorem branchPolicy_blocked_of_reached (re : Regexp) (configuration : Configuration)
    (remote b : String) (refs : List Reference) (pre : List String) (p : String)
    (post vs : List String)
    (hc : (remoteBranchExists remote b refs
      || configuration.prePush.enforceProtectedBranchesOnNonExistentRemote) = true)
    (hpre : ∀ q ∈ pre, matchString re q b = some false)
    (hp : matchString re p b = some true) :
    branchPolicy re
        (withValidBranches (withProtectedBranches configuration (pre ++ p :: post)) vs)
        remote b refs
      = Outcome.exit "Current branch is protected" 1 := by
  have hloop : protectedLoop re b (pre ++ p :: post)
      = some (Outcome.exit "Current branch is protected" 1) :=
    (protectedLoop_blocked_iff re b _).mpr ⟨p, ⟨pre, post, rfl, hpre⟩, hp⟩
  have hc1 : (remoteBranchExists remote b refs
      || (withValidBranches (withProtectedBranches configuration (pre ++ p :: post))
          vs).prePush.enforceProtectedBranchesOnNonExistentRemote) = true := hc
  have hps : (withValidBranches (withProtectedBranches configuration (pre ++ p :: post))
      vs).prePush.protectedBranches = pre ++ p :: post := rfl
  simp only [branchPolicy, hc1, hps, hloop, if_true]

/-- When a matching valid pattern is reached, the outcome of lines 165-203 does
not depend on what follows that pattern in `validBranches`. -/
theorem branchPolicy_valid_tail_irrelevant (re : Regexp) (configuration : Configuration)
    (remote b : String) (refs : List Reference) (pre : List String) (p : String)
    (post post1 : List String)
    (hpre : ∀ q ∈ pre, matchString re q b = some false)
    (hp : matchString re p b = some true) :
    branchPolicy re (withValidBranches configuration (pre ++ p :: post)) remote b refs
      = branchPolicy re (withValidBranches configuration (pre ++ p :: post1)) remote b refs := by
  have h0 : validLoop re b (pre ++ p :: post) = some true :=
    (validLoop_true_iff re b _).mpr ⟨p, ⟨pre, post, rfl, hpre⟩, hp⟩
  have h1 : validLoop re b (pre ++ p :: post1) = some true :=
    (validLoop_true_iff re b _).mpr ⟨p, ⟨pre, post1, rfl, hpre⟩, hp⟩
  simp only [branchPolicy, withValidBranches, h0, h1]

/-- C5, amended: with the hook enabled and HEAD a branch `b`, patterns are
compiled one at a time inside the two first-match loops.
(1) The action ends in a panic exactly when the evaluation reaches a pattern that
does not compile: either the protected check applies and such a pattern of
`protectedBranches` is reached (every pattern before it compiles and does not
match `b`), or the protected stage runs through without a block (the check is not
applied, or every protected pattern compiles and does not match) and such a
pattern of `validBranches` is reached.
A pattern that is not reached, valid or not, does not change the outcome:
(2) when the protected check is not applied, the outcome is the same for every
`protectedBranches` list;
(3) when the protected check applies and a matching pattern of
`protectedBranches` is reached, the outcome is the protected block for every
continuation of that list after the pattern and every `validBranches` list;
(4) when a matching pattern of `validBranches` is reached, the outcome is the
same for every continuation of that list after the pattern, and it is `nil` if
the protected stage ran through without a block. -/
theorem prePush_lazy_compilation (re : Regexp) (configuration : Configuration)
    (w : PrePushWorld) (args : List String) (pwd : String) (repo : Repository)
    (b : String) (refs : List Reference)
    (hen : configuration.prePush.enabled = true)
    (hwd : w.getwd = .ok pwd) (hopen : w.plainOpen pwd = .ok repo)
    (hhead : repo.head = .ok { isBranch := true, short := b })
    (hrefs : repo.references = .ok refs) :
    (prePush re configuration w args = Outcome.panicked ↔
        ((remoteBranchExists (remoteArgument args) b refs
              || configuration.prePush.enforceProtectedBranchesOnNonExistentRemote) = true
            ∧ ∃ p, Reached re b configuration.prePush.protectedBranches p ∧ re p = none)
          ∨ (((remoteBranchExists (remoteArgument args) b refs
                || configuration.prePush.enforceProtectedBranchesOnNonExistentRemote) = false
              ∨ ∀ q ∈ configuration.prePush.protectedBranches,
                  matchString re q b = some false)
            ∧ ∃ p, Reached re b configuration.prePush.validBranches p ∧ re p = none))
      ∧ ((remoteBranchExists (remoteArgument args) b refs
            || configuration.prePush.enforceProtectedBranchesOnNonExistentRemote) = false →
          ∀ ps : List String,
            prePush re (withProtectedBranches configuration ps) w args
              = prePush re configuration w args)
      ∧ ((remoteBranchExists (remoteArgument args) b refs
            || configuration.prePush.enforceProtectedBranchesOnNonExistentRemote) = true →
          ∀ (pre : List String) (p : String) (post : List String),
            configuration.prePush.protectedBranches = pre ++ p :: post →
            (∀ q ∈ pre, matchString re q b = some false) →
            matchString re p b = some true →
            prePush re configuration w args
                = Outcome.exit "Current branch is protected" 1
              ∧ ∀ post1 vs : List String,
                prePush re
                    (withValidBranches
                      (withProtectedBranches configuration (pre ++ p :: post1)) vs) w args
                  = prePush re configuration w args)
      ∧ (∀ (pre : List String) (p : String) (post : List String),
          configuration.prePush.validBranches = pre ++ p :: post →
          (∀ q ∈ pre, matchString re q b = some false) →
          matchString re p b = some true →
          (∀ post1 : List String,
              prePush re (withValidBranches configuration (pre ++ p :: post1)) w args
                = prePush re configuration w args)
            ∧ (((remoteBranchExists (remoteArgument args) b refs
                  || configuration.prePush.enforceProtectedBranchesOnNonExistentRemote) = false
                ∨ ∀ q ∈ configuration.prePush.protectedBranches,
                    matchString re q b = some false) →
              prePush re configuration w args = Outcome.ok)) := by
  have hpol : ∀ c : Configuration, c.prePush.enabled = true →
      prePush re c w args = branchPolicy re c (remoteArgument args) b refs :=
    fun c hc => prePush_eq_branchPolicy re c w args pwd repo b refs hc hwd hopen hhead hrefs
  refine ⟨prePush_panicked_iff_reached re configuration w args pwd repo b refs
    hen hwd hopen hhead hrefs, ?_, ?_, ?_⟩
  · intro hc ps
    rw [hpol _ hen, hpol (withProtectedBranches configuration ps) hen]
    exact branchPolicy_protected_irrelevant re configuration _ b refs ps hc
  · intro hc pre p post hps hpre hp
    have hloop : protectedLoop re b configuration.prePush.protectedBranches
        = some (Outcome.exit "Current branch is protected" 1) :=
      (protectedLoop_blocked_iff re b _).mpr ⟨p, ⟨pre, post, hps, hpre⟩, hp⟩
    have h0 : prePush re configuration w args
        = Outcome.exit "Current branch is protected" 1 := by
      rw [hpol _ hen]
      simp only [branchPolicy, hc, hloop, if_true]
    refine ⟨h0, ?_⟩
    intro post1 vs
    rw [h0, hpol (withValidBranches
      (withProtectedBranches configuration (pre ++ p :: post1)) vs) hen]
    exact branchPolicy_blocked_of_reached re configuration _ b refs pre p post1 vs hc hpre hp
  · intro pre p post hvs hpre hp
    have hself : branchPolicy re configuration (remoteArgument args) b refs
        = branchPolicy re (withValidBranches configuration (pre ++ p :: post))
            (remoteArgument args) b refs := by
      simp only [branchPolicy, withValidBranches, hvs]
    constructor
    · intro post1
      rw [hpol _ hen, hpol (withValidBranches configuration (pre ++ p :: post1)) hen, hself]
      exact branchPolicy_valid_tail_irrelevant re configuration _ b refs pre p post1 post
        hpre hp
    · intro hpass
      have hv : validLoop re b configuration.prePush.validBranches = some true :=
        (validLoop_true_iff re b _).mpr ⟨p, ⟨pre, post, hvs, hpre⟩, hp⟩
      rw [hpol _ hen]
      rcases hpass with hc | hall
      · simp only [branchPolicy, hc, hv]
        simp
      · have hnone : protectedLoop re b configuration.prePush.protectedBranches = none :=
          (protectedLoop_none_iff re b _).mpr hall
        simp only [branchPolicy, hnone, hv]
        simp

/-- Scenarios of C5, amended: with `validBranches: ["("]` and no protected
pattern, the pattern that does not compile is the first one the loop reaches and
the action panics; with `validBranches: [".*", "("]` the pattern `(` follows the
matching `.*`, and the outcome is the one of `validBranches: [".*"]`. -/
theorem prePush_lazy_compilation_witness :
    prePush fragment
        (configOfPrePush
          { enabled := true, enforceProtectedBranchesOnNonExistentRemote := false,
            protectedBranches := [], validBranches := ["("] })
        (worldOf { isBranch := true, short := "main" } []) ["origin"]
      = Outcome.panicked
    ∧ prePush fragment
        (withValidBranches (configOfPrePush
          { enabled := true, enforceProtectedBranchesOnNonExistentRemote := false,
            protectedBranches := [], validBranches := [".*", "("] }) [".*"])
        (worldOf { isBranch := true, short := "main" } []) ["origin"]
      = prePush fragment
        (configOfPrePush
          { enabled := true, enforceProtectedBranchesOnNonExistentRemote := false,
            protectedBranches := [], validBranches := [".*", "("] })
        (worldOf { isBranch := true, short := "main" } []) ["origin"] :=
  ⟨(prePush_lazy_compilation fragment
      (configOfPrePush
        { enabled := true, enforceProtectedBranchesOnNonExistentRemote := false,
          protectedBranches := [], validBranches := ["("] })
      (worldOf { isBranch := true, short := "main" } []) ["origin"] "/work"
      { head := .ok { isBranch := true, short := "main" }, references := .ok [] }
      "main" [] rfl rfl rfl rfl rfl).1.mpr
      (Or.inr ⟨Or.inl (by decide),
        "(", ⟨[], [], rfl, by simp⟩, Option.isNone_iff_eq_none.mp (by decide)⟩),
   ((prePush_lazy_compilation fragment
      (configOfPrePush
        { enabled := true, enforceProtectedBranchesOnNonExistentRemote := false,
          protectedBranches := [], validBranches := [".*", "("] })
      (worldOf { isBranch := true, short := "main" } []) ["origin"] "/work"
      { head := .ok { isBranch := true, short := "main" }, references := .ok [] }
      "main" [] rfl rfl rfl rfl rfl).2.2.2 [] ".*" ["("] rfl (by simp) (by decide)).1 []⟩

/-! ## The remote-tracking flag -/

theorem forEachRef_append_remote (remote b : String) (refs : List Reference)
    (r : Reference) (acc : Bool)
    (hsym : r.refType ≠ ReferenceType.symbolicReference) (hrem : r.isRemote = true) :
    forEachRef remote b (refs ++ [r]) acc = (r.short == remote ++ "/" ++ b) := by
  induction refs generalizing acc with
  | nil => simp [forEachRef, hsym, hrem]
  | cons x xs ih =>
    simp only [List.cons_append, forEachRef]
    split
    · exact ih _
    · split
      · exact ih _
      · exact ih _

/-- The flag computed by the code is the comparison made at the last
non-symbolic remote-type reference of the enumeration. -/
theorem remoteBranchExists_append_remote (remote b : String) (refs : List Reference)
    (r : Reference)
    (hsym : r.refType ≠ ReferenceType.symbolicReference) (hrem : r.isRemote = true) :
    remoteBranchExists remote b (refs ++ [r]) = (r.short == remote ++ "/" ++ b) :=
  forEachRef_append_remote remote b refs r false hsym hrem

/-- C2, the code at a failing input: for remote `origin` and branch `main`, with
the references `origin/main`, `origin/release` enumerated in this order the
membership test of the specification is true and the flag computed by the code
is false; in the other order the flag is true. With `protectedBranches:
["^main$"]`, `validBranches: [".*"]` the push of `main` is then allowed in the
first order and blocked as protected in the second. -/
theorem remoteBranchExists_order_dependent :
    remoteTrackingExistsSpec "origin" "main"
        [remoteRef "origin/main", remoteRef "origin/release"] = true
      ∧ remoteBranchExists "origin" "main"
        [remoteRef "origin/main", remoteRef "origin/release"] = false
      ∧ remoteBranchExists "origin" "main"
        [remoteRef "origin/release", remoteRef "origin/main"] = true
      ∧ prePush fragment
          (configOfPrePush
            { enabled := true, enforceProtectedBranchesOnNonExistentRemote := false,
              protectedBranches := ["^main$"], validBranches := [".*"] })
          (worldOf { isBranch := true, short := "main" }
            [remoteRef "origin/main", remoteRef "origin/release"]) ["origin"]
        = Outcome.ok
      ∧ prePush fragment
          (configOfPrePush
            { enabled := true, enforceProtectedBranchesOnNonExistentRemote := false,
              protectedBranches := ["^main$"], validBranches := [".*"] })
          (worldOf { isBranch := true, short := "main" }
            [remoteRef "origin/release", remoteRef "origin/main"]) ["origin"]
        = Outcome.exit "Current branch is protected" 1 := by
  refine ⟨?_, ?_, ?_, ?_, ?_⟩ <;> decide

theorem short_ne_of_head (short b : String) (h : short.toList.head? ≠ some '/') :
    (short == "" ++ "/" ++ b) = false := by
  rw [Bool.eq_false_iff]
  intro heq
  have hs : short = "" ++ "/" ++ b := by simpa using heq
  apply h
  rw [hs]
  simp [String.toList]

theorem forEachRef_empty_remote (b : String) (refs : List Reference)
    (hwf : ∀ r ∈ refs, r.refType ≠ ReferenceType.symbolicReference → r.isRemote = true →
      r.short.toList.head? ≠ some '/') :
    forEachRef "" b refs false = false := by
  induction refs with
  | nil => rfl
  | cons x xs ih =>
    have ih1 := ih (fun r hr => hwf r (List.mem_cons_of_mem _ hr))
    simp only [forEachRef]
    split
    · exact ih1
    · rename_i hsym
      split
      · rename_i hrem
        rw [short_ne_of_head x.short b (hwf x (List.mem_cons_self _ _) hsym hrem)]
        exact ih1
      · exact ih1

/-- C8, counterexample: the code has no guard for an absent remote argument; it
compares every remote-type short name with `"/" ++ branch`. With no positional
argument and a reference whose short name is `/main`, the flag is true for
branch `main`, and the protected check is applied although
`enforceProtectedBranchesOnNonExistentRemote` is false. -/
theorem remoteBranchExists_empty_remote_true :
    remoteBranchExists (remoteArgument []) "main" [remoteRef "/main"] = true
      ∧ prePush fragment
          (configOfPrePush
            { enabled := true, enforceProtectedBranchesOnNonExistentRemote := false,
              protectedBranches := ["^main$"], validBranches := [".*"] })
          (worldOf { isBranch := true, short := "main" } [remoteRef "/main"]) []
        = Outcome.exit "Current branch is protected" 1 := by
  refine ⟨?_, ?_⟩ <;> decide

/-- C8, amended: when the remote name is `""` (as it is with no positional
argument), for every branch name and every list of references in which no
non-symbolic remote-type reference has a short name beginning with `/`, the flag
is false and the action behaves as in a repository without references (the
protected check applies only under `enforceProtectedBranchesOnNonExistentRemote`);
the flag is also false for every remote name when there are no references. -/
theorem remoteBranchExists_empty_remote (args : List String) (b : String)
    (refs : List Reference)
    (hargs : remoteArgument args = "")
    (hwf : ∀ r ∈ refs, r.refType ≠ ReferenceType.symbolicReference → r.isRemote = true →
      r.short.toList.head? ≠ some '/') :
    remoteArgument [] = ""
      ∧ remoteBranchExists (remoteArgument args) b refs = false
      ∧ (∀ (re : Regexp) (configuration : Configuration),
          prePush re configuration (worldOf { isBranch := true, short := b } refs) args
            = prePush re configuration (worldOf { isBranch := true, short := b } []) args
          ∧ (configuration.prePush.enabled = true →
              configuration.prePush.enforceProtectedBranchesOnNonExistentRemote = false →
              prePush re configuration (worldOf { isBranch := true, short := b } refs) args
                ≠ Outcome.exit "Current branch is protected" 1))
      ∧ ∀ remote : String, remoteBranchExists remote b [] = false := by
  have hflag : remoteBranchExists (remoteArgument args) b refs = false := by
    rw [hargs]
    exact forEachRef_empty_remote b refs hwf
  refine ⟨rfl, hflag, ?_, fun _ => rfl⟩
  intro re configuration
  constructor
  · cases hen : configuration.prePush.enabled with
    | false => simp [prePush, hen]
    | true =>
      rw [prePush_eq_branchPolicy re configuration _ args "/work" _ b refs hen rfl rfl rfl rfl,
        prePush_eq_branchPolicy re configuration _ args "/work" _ b [] hen rfl rfl rfl rfl]
      simp only [branchPolicy, hflag]
      rfl
  · intro hen henf
    rw [prePush_eq_branchPolicy re configuration _ args "/work" _ b refs hen rfl rfl rfl rfl,
      branchPolicy_of_unchecked re configuration _ b refs hflag henf]
    exact validOutcome_ne_protected re b _

/-- Scenario of C8, amended: no positional argument, branch `main`, references
`origin/main` and the local `main`: the flag is false. -/
theorem remoteBranchExists_empty_remote_witness :
    remoteBranchExists (remoteArgument []) "main" [remoteRef "origin/main", localRef "main"]
      = false :=
  (remoteBranchExists_empty_remote [] "main" [remoteRef "origin/main", localRef "main"]
    rfl (by decide)).2.1

/-! ## `commit-msg` -/

/-- C6: `commit-msg` with 1 to 3 positional arguments, commit type `commit`, the
feature enabled, a verification pattern that compiles and a readable message
file: the action ends with exit code 100 exactly when the pattern has no match in
the full file content and with exit code 0 otherwise; exit code 1 is not
produced. -/
theorem commitMsg_exit_code (re : Regexp) (configuration : Configuration)
    (readFile : String → Except String String) (args : List String)
    (path data : String)
    (hlen : 1 ≤ args.length ∧ args.length ≤ 3)
    (hpath : args.head? = some path)
    (htype : args.getD 1 "commit" = "commit")
    (hen : configuration.commitMessage.commit.enabled = true)
    (hre : (re configuration.commitMessage.commit.verificationRegEx).isSome = true)
    (hread : readFile path = .ok data) :
    ((commitMsg re configuration readFile args).exitCode = some 100 ↔
        matchString re configuration.commitMessage.commit.verificationRegEx data = some false)
      ∧ ((commitMsg re configuration readFile args).exitCode = some 0 ↔
        matchString re configuration.commitMessage.commit.verificationRegEx data = some true)
      ∧ (commitMsg re configuration readFile args).exitCode ≠ some 1
      ∧ commitMsg re configuration readFile args =
        (if matchString re configuration.commitMessage.commit.verificationRegEx data
            = some true then Outcome.ok
          else Outcome.exit "Commit message does not match required regular expression" 100)
      := by
  obtain ⟨m, hm⟩ := Option.isSome_iff_exists.mp hre
  have key : commitMsg re configuration readFile args =
      (if m data = true then Outcome.ok
        else Outcome.exit "Commit message does not match required regular expression" 100) := by
    match args, hlen, hpath, htype with
    | [a0], _, hpath, _ =>
      simp only [List.head?_cons, Option.some.injEq] at hpath
      subst hpath
      simp only [commitMsg, hen, hread, hm]
      cases m data <;> simp
    | [a0, a1], _, hpath, htype =>
      simp only [List.head?_cons, Option.some.injEq] at hpath
      simp only [List.getD_cons_succ, List.getD_cons_zero] at htype
      subst hpath
      subst htype
      simp only [commitMsg, hen, hread, hm]
      cases m data <;> simp
    | [a0, a1, a2], _, hpath, htype =>
      simp only [List.head?_cons, Option.some.injEq] at hpath
      simp only [List.getD_cons_succ, List.getD_cons_zero] at htype
      subst hpath
      subst htype
      simp only [commitMsg, hen, hread, hm]
      cases m data <;> simp
    | [], hlen, _, _ => simp at hlen
    | _ :: _ :: _ :: _ :: _, hlen, _, _ =>
      simp only [List.length_cons] at hlen
      omega
  rw [key]
  simp only [matchString, hm, Option.map_some']
  cases m data <;> simp [Outcome.exitCode]

/-- Scenario of C6: with `verificationRegEx: "^JIRA-\\d+"` the message
`JIRA-123: fix bug` passes and the message `fix bug` ends with exit code 100. -/
theorem commitMsg_exit_code_witness :
    (commitMsg fragment
        (configOfCommitMessage { enabled := true, verificationRegEx := "^JIRA-\\d+" })
        (readFileOf [("COMMIT_EDITMSG", "JIRA-123: fix bug")]) ["COMMIT_EDITMSG"]).exitCode
      = some 0
    ∧ (commitMsg fragment
        (configOfCommitMessage { enabled := true, verificationRegEx := "^JIRA-\\d+" })
        (readFileOf [("COMMIT_EDITMSG", "fix bug")]) ["COMMIT_EDITMSG", "commit"]).exitCode
      = some 100 :=
  ⟨(commitMsg_exit_code fragment
      (configOfCommitMessage { enabled := true, verificationRegEx := "^JIRA-\\d+" })
      (readFileOf [("COMMIT_EDITMSG", "JIRA-123: fix bug")]) ["COMMIT_EDITMSG"]
      "COMMIT_EDITMSG" "JIRA-123: fix bug"
      (by decide) rfl (by decide) rfl (by decide) rfl).2.1.mpr (by decide),
   (commitMsg_exit_code fragment
      (configOfCommitMessage { enabled := true, verificationRegEx := "^JIRA-\\d+" })
      (readFileOf [("COMMIT_EDITMSG", "fix bug")]) ["COMMIT_EDITMSG", "commit"]
      "COMMIT_EDITMSG" "fix bug"
      (by decide) rfl (by decide) rfl (by decide) rfl).1.mpr (by decide)⟩

/-! ## `pre-commit` -/

theorem preCommitLoop_all_succeed (run : PreCommitExecute → Bool)
    (l : List PreCommitExecute) (h : ∀ e ∈ l, run e = true) :
    preCommitLoop run l = (Outcome.ok, l) := by
  induction l with
  | nil => rfl
  | cons x xs ih =>
    have hx := h x (List.mem_cons_self _ _)
    have ih1 := ih (fun e he => h e (List.mem_cons_of_mem _ he))
    simp [preCommitLoop, hx, ih1]

theorem preCommitLoop_first_failure (run : PreCommitExecute → Bool)
    (pre : List PreCommitExecute) (c : PreCommitExecute) (post : List PreCommitExecute)
    (hpre : ∀ e ∈ pre, run e = true) (hc : run c = false) :
    preCommitLoop run (pre ++ c :: post) = (Outcome.panicked, pre ++ [c]) := by
  induction pre with
  | nil => simp [preCommitLoop, hc]
  | cons x xs ih =>
    have hx := hpre x (List.mem_cons_self _ _)
    have ih1 := ih (fun e he => hpre e (List.mem_cons_of_mem _ he))
    simp [preCommitLoop, hx, ih1]

/-- C7: `pre-commit` with the hook enabled and the command runner a function
from a command to success or failure: if no command of the `execute` list fails,
every command is run once, in list order, and the action returns `nil`; if
`c` is the first command that fails, the commands run are exactly those before
`c` followed by `c`, in list order, no command after `c` is run, and the action
panics. -/
theorem preCommit_runs_until_first_failure (run : PreCommitExecute → Bool)
    (configuration : Configuration)
    (hen : configuration.preCommit.enabled = true) :
    ((∀ e ∈ configuration.preCommit.execute, run e = true) →
        preCommit run configuration = (Outcome.ok, configuration.preCommit.execute))
      ∧ ∀ (pre : List PreCommitExecute) (c : PreCommitExecute)
          (post : List PreCommitExecute),
          configuration.preCommit.execute = pre ++ c :: post →
          (∀ e ∈ pre, run e = true) → run c = false →
          preCommit run configuration = (Outcome.panicked, pre ++ [c]) := by
  constructor
  · intro h
    simp only [preCommit, hen]
    exact preCommitLoop_all_succeed run _ h
  · intro pre c post hex hpre hc
    simp only [preCommit, hen, hex]
    exact preCommitLoop_first_failure run pre c post hpre hc

/-- Scenario of C7: a list of two commands whose first command fails: only the
first command is run and the action panics. -/
theorem preCommit_runs_until_first_failure_witness :
    preCommit runExceptFalse
        (configOfPreCommit
          { enabled := true,
            execute := [{ command := "false", arguments := [] },
              { command := "echo", arguments := ["done"] }] })
      = (Outcome.panicked, [{ command := "false", arguments := [] }]) :=
  (preCommit_runs_until_first_failure runExceptFalse
    (configOfPreCommit
      { enabled := true,
        execute := [{ command := "false", arguments := [] },
          { command := "echo", arguments := ["done"] }] })
    rfl).2 [] { command := "false", arguments := [] }
      [{ command := "echo", arguments := ["done"] }] rfl (by simp) (by decide)

/-! ## `prepare-commit-msg` -/

/-- C10: `prepare-commit-msg` with 1 to 3 positional arguments: if the commit
type (the second argument, `commit` when absent) is not `commit`, or
`prepareCommitMessage.commit.enabled` is false, the action returns `nil`, leaves
the file-system state as it was and prints nothing; and a third argument never
changes the result. -/
theorem prepareCommitMsg_noop {σ : Type} (fs : FileOps σ) (configuration : Configuration)
    (args : List String) (s : σ)
    (hlen : 1 ≤ args.length ∧ args.length ≤ 3)
    (hnoop : args.getD 1 "commit" ≠ "commit"
      ∨ configuration.prepareCommitMessage.commit.enabled = false) :
    prepareCommitMsg fs configuration args s = (Outcome.ok, s, [])
      ∧ (prepareCommitMsg fs configuration args s).1.exitCode = some 0
      ∧ ∀ (a0 a1 a2 : String) (t : σ),
          prepareCommitMsg fs configuration [a0, a1, a2] t
            = prepareCommitMsg fs configuration [a0, a1] t := by
  have key : prepareCommitMsg fs configuration args s = (Outcome.ok, s, []) := by
    match args, hlen, hnoop with
    | [a0], _, hnoop =>
      rcases hnoop with h | h
      · simp at h
      · simp [prepareCommitMsg, h]
    | [a0, a1], _, hnoop =>
      simp only [List.getD_cons_succ, List.getD_cons_zero] at hnoop
      rcases hnoop with h | h
      · simp [prepareCommitMsg, h]
      · simp [prepareCommitMsg, h]
    | [a0, a1, a2], _, hnoop =>
      simp only [List.getD_cons_succ, List.getD_cons_zero] at hnoop
      rcases hnoop with h | h
      · simp [prepareCommitMsg, h]
      · simp [prepareCommitMsg, h]
    | [], hlen, _ => simp at hlen
    | _ :: _ :: _ :: _ :: _, hlen, _ =>
      simp only [List.length_cons] at hlen
      omega
  refine ⟨key, by rw [key]; rfl, ?_⟩
  intro a0 a1 a2 t
  simp [prepareCommitMsg]

/-- Scenario of C10: commit type `merge` with an existing destination file: the
file keeps its content; and with commit type `commit` and the feature disabled a
missing destination file is not created. -/
theorem prepareCommitMsg_noop_witness :
    prepareCommitMsg filesOps
        (configOfPrepare { enabled := true, template := "subject" })
        ["MSG", "merge"] [("MSG", "old text")]
      = (Outcome.ok, [("MSG", "old text")], [])
    ∧ prepareCommitMsg filesOps
        (configOfPrepare { enabled := false, template := "subject" })
        ["MSG", "commit", "HEAD"] []
      = (Outcome.ok, [], []) :=
  ⟨(prepareCommitMsg_noop filesOps
      (configOfPrepare { enabled := true, template := "subject" })
      ["MSG", "merge"] [("MSG", "old text")] (by decide) (Or.inl (by decide))).1,
   (prepareCommitMsg_noop filesOps
      (configOfPrepare { enabled := false, template := "subject" })
      ["MSG", "commit", "HEAD"] [] (by decide) (Or.inr rfl)).1⟩

end GitSmart
